import Mathlib

/-!
Shallow embedding of the core data pipeline of `dashboard_app.py`
(sales dashboard): loading/validation of the CSV column set, per-row
field coercion (Quantity, Price, Date, derived Revenue), product/date
filtering, and revenue aggregation.

Numbers: `pd.to_numeric` results are modelled over `ℚ` (exact
arithmetic), integer casts (`astype(int)`) as truncation toward zero.
Dates: `pd.to_datetime` is modelled as parsing of ISO `YYYY-MM-DD`
text to the numeric code `y*10000 + m*100 + d`, which is monotone in
chronological order; parse failure yields `none` (pandas `NaT`).
-/

namespace SalesDashboard

/-- Strip leading and trailing whitespace from a character list (the
model of Python's `str.strip` / pandas-side whitespace tolerance). -/
def trimChars (cs : List Char) : List Char :=
  ((cs.dropWhile Char.isWhitespace).reverse.dropWhile
    Char.isWhitespace).reverse

/-- Strip surrounding whitespace from a string. -/
def strTrim (s : String) : String :=
  ⟨trimChars s.data⟩

/-- Numeric value of a digit list, most significant first
(meaningful when all characters are digits). -/
def digitsToNat (cs : List Char) : Nat :=
  cs.foldl (fun n c => 10 * n + (c.toNat - 48)) 0

/-- Parse an unsigned decimal literal `digits` or `digits.digits`
(either side of the point may be empty, not both), as `pd.to_numeric`
accepts; anything else fails. -/
def parseUnsigned (cs : List Char) : Option ℚ :=
  let ip := cs.takeWhile Char.isDigit
  let rest := cs.dropWhile Char.isDigit
  match rest with
  | [] => if ip.isEmpty then none else some (digitsToNat ip : ℚ)
  | '.' :: fp =>
    if fp.all Char.isDigit && !(ip.isEmpty && fp.isEmpty) then
      some ((digitsToNat ip : ℚ) + (digitsToNat fp : ℚ) / ((10 : ℚ) ^ fp.length))
    else none
  | _ => none

/-- Model of `pd.to_numeric(x, errors="coerce")` on a text cell:
optional sign then a decimal literal; failure is `none` (NaN). -/
def parseNum (s : String) : Option ℚ :=
  match trimChars s.data with
  | '-' :: cs => (parseUnsigned cs).map (fun q => -q)
  | '+' :: cs => parseUnsigned cs
  | cs => parseUnsigned cs

/-- Truncation toward zero, the behaviour of `astype(int)` on a
numeric value. -/
def ratTrunc (q : ℚ) : Int :=
  q.num.tdiv (q.den : Int)

/-- Model of `pd.to_datetime(x, errors="coerce")` on a text cell:
an ISO `YYYY-MM-DD` date becomes the code `y*10000 + m*100 + d`
(monotone in chronological order); failure is `none` (NaT). -/
def parseDate (s : String) : Option Nat :=
  match trimChars s.data with
  | [y1, y2, y3, y4, '-', m1, m2, '-', d1, d2] =>
    if [y1, y2, y3, y4, m1, m2, d1, d2].all Char.isDigit then
      let y := digitsToNat [y1, y2, y3, y4]
      let m := digitsToNat [m1, m2]
      let d := digitsToNat [d1, d2]
      if 1 ≤ m && m ≤ 12 && 1 ≤ d && d ≤ 31 then
        some (y * 10000 + m * 100 + d)
      else none
    else none
  | _ => none

/-- One raw row of the loaded CSV: the four required cells as text,
the `Revenue` source cell when the file happens to carry one (the
pipeline never reads it), and any extra columns beyond these five as
name/text pairs. -/
structure RawRow where
  date : String
  product : String
  quantity : String
  price : String
  revenueSrc : Option String
  extra : List (String × String)
deriving Repr, DecidableEq

/-- One coerced row: typed `Date`, `Quantity`, `Price` and the derived
`Revenue` column, `Product` and extra columns carried through. -/
structure Row where
  date : Option Nat
  product : String
  quantity : Int
  price : ℚ
  revenue : ℚ
  extra : List (String × String)
deriving Repr, DecidableEq

/-- Per-row field coercion, lines 42-44 and 55 of `dashboard_app.py`:
`Quantity = to_numeric(..).fillna(0).astype(int)`,
`Price = to_numeric(..).fillna(0)`, `Revenue = Quantity * Price`,
`Date = to_datetime(.., errors="coerce")`. -/
def coerceRow (r : RawRow) : Row :=
  let q : Int := ((parseNum r.quantity).map ratTrunc).getD 0
  let p : ℚ := (parseNum r.price).getD 0
  { date := parseDate r.date
    product := r.product
    quantity := q
    price := p
    revenue := (q : ℚ) * p
    extra := r.extra }

/-- Field coercion over the whole dataset (column-wise in pandas,
row-wise here: the coercions are per-cell). -/
def coerce (raw : List RawRow) : List Row :=
  raw.map coerceRow

/-- The required column set of line 36:
`{"Date", "Product", "Quantity", "Price"}`. -/
def requiredCols : List String :=
  ["Date", "Product", "Quantity", "Price"]

/-- The validation failure of lines 37-39: the error message carries
the expected column set and the (trimmed) columns actually found. -/
structure ValidationError where
  expected : List String
  found : List String
deriving Repr, DecidableEq

/-- The required columns the error reports as absent: those expected
but not found. -/
def ValidationError.missing (e : ValidationError) : List String :=
  e.expected.filter (fun c => !(e.found.contains c))

/-- Loader/validator, lines 33-39: trim the column names, then stop
with the validation error unless every required column is present;
on success the raw table continues into the pipeline unchanged. -/
def load (cols : List String) (rows : List RawRow) :
    Except ValidationError (List RawRow) :=
  let tcols := cols.map strTrim
  if requiredCols.all (fun c => tcols.contains c) then
    Except.ok rows
  else
    Except.error ⟨requiredCols, tcols⟩

/-- User filter criteria: the selected product names and the inclusive
date interval; a bound is `none` when it derives from an all-NaT
column. -/
structure FilterCriteria where
  products : List String
  startDate : Option Nat
  endDate : Option Nat
deriving Repr, DecidableEq

/-- `df["Date"] >= start_date` on one cell: comparisons involving NaT
are false in pandas. -/
def dateGe (d lo : Option Nat) : Bool :=
  match d, lo with
  | some d, some lo => decide (lo ≤ d)
  | _, _ => false

/-- `df["Date"] <= end_date` on one cell: comparisons involving NaT
are false in pandas. -/
def dateLe (d hi : Option Nat) : Bool :=
  match d, hi with
  | some d, some hi => decide (d ≤ hi)
  | _, _ => false

/-- The row predicate of lines 62-66:
`Product.isin(products) & (Date >= start_date) & (Date <= end_date)`. -/
def rowMatches (c : FilterCriteria) (r : Row) : Bool :=
  decide (r.product ∈ c.products) && dateGe r.date c.startDate &&
    dateLe r.date c.endDate

/-- The filter engine of lines 62-66: the boolean mask keeps exactly
the matching rows, in their original order. -/
def filterView (c : FilterCriteria) (ds : List Row) : List Row :=
  ds.filter (rowMatches c)

/-- Spec-side filter, transliterated from the specification's words
(§4.3) for comparison with `filterView`: "the sub-sequence of rows
where `product` is in the selected set AND `date` is within
`[start, end]` inclusive (rows with null date never match)". -/
def specFilterView (ps : List String) (lo hi : Nat) (ds : List Row) :
    List Row :=
  ds.filter (fun r =>
    decide (r.product ∈ ps) &&
      (match r.date with
       | none => false
       | some d => decide (lo ≤ d) && decide (d ≤ hi)))

/-- `filtered_df["Revenue"].sum()` of line 72. -/
def totalRevenue (v : List Row) : ℚ :=
  (v.map Row.revenue).sum

/-- Insert a string into a sorted list of strings, keeping it
sorted. -/
def insertSorted (s : String) : List String → List String
  | [] => [s]
  | t :: ts => if s ≤ t then s :: t :: ts else t :: insertSorted s ts

/-- Sort a list of strings ascending (insertion sort; the model of
Python's `sorted`). -/
def sortStrings (l : List String) : List String :=
  l.foldr insertSorted []

/-- `sorted(df["Product"].unique())` of lines 50-51: the distinct
products, sorted; this is the default (and maximal) product
selection. -/
def defaultProducts (ds : List Row) : List String :=
  sortStrings ((ds.map Row.product).dedup)

/-- Minimum of a list of dates, `none` on the empty list. -/
def listMin (l : List Nat) : Option Nat :=
  l.foldr
    (fun d acc => match acc with
      | none => some d
      | some m => some (min d m)) none

/-- Maximum of a list of dates, `none` on the empty list. -/
def listMax (l : List Nat) : Option Nat :=
  l.foldr
    (fun d acc => match acc with
      | none => some d
      | some m => some (max d m)) none

/-- `df["Date"].min()` of line 56: NaT cells are skipped; all-NaT
yields NaT. -/
def minDate (ds : List Row) : Option Nat :=
  listMin (ds.filterMap Row.date)

/-- `df["Date"].max()` of line 57: NaT cells are skipped; all-NaT
yields NaT. -/
def maxDate (ds : List Row) : Option Nat :=
  listMax (ds.filterMap Row.date)

/-- The default filter criteria of lines 48-59: every distinct
product, and the date interval `[min date, max date]` over the
dataset. -/
def fullCriteria (ds : List Row) : FilterCriteria :=
  ⟨defaultProducts ds, minDate ds, maxDate ds⟩

/-- The distinct non-null dates of a view, the group keys of
`groupby(filtered_df["Date"].dt.date)` on line 88 (pandas drops NaT
keys). -/
def viewDays (v : List Row) : List Nat :=
  (v.filterMap Row.date).dedup

/-- Summed revenue of the rows of a view falling on one day. -/
def revenueOnDay (v : List Row) (d : Nat) : ℚ :=
  ((v.filter (fun r => decide (r.date = some d))).map Row.revenue).sum

/-- The sum over all days of the daily revenue series `daily_rev` of
line 88. -/
def revenueByDaySum (v : List Row) : ℚ :=
  ((viewDays v).map (revenueOnDay v)).sum

/-! ## Helper lemmas -/

theorem mem_insertSorted (s a : String) (l : List String) :
    a ∈ insertSorted s l ↔ a = s ∨ a ∈ l := by
  induction l with
  | nil => simp [insertSorted]
  | cons t ts ih =>
    by_cases h : s ≤ t
    · simp [insertSorted, h]
    · simp [insertSorted, h, ih]
      tauto

theorem mem_sortStrings (a : String) (l : List String) :
    a ∈ sortStrings l ↔ a ∈ l := by
  induction l with
  | nil => simp [sortStrings]
  | cons t ts ih =>
    simp [sortStrings, mem_insertSorted] at *
    tauto

theorem listMin_le (l : List Nat) (d : Nat) (hd : d ∈ l) :
    ∃ m, listMin l = some m ∧ m ≤ d := by
  induction l with
  | nil => cases hd
  | cons a t ih =>
    rcases List.mem_cons.mp hd with heq | h
    · cases ht : listMin t with
      | none =>
        exact ⟨a, by simp [listMin] at ht ⊢; simp [ht], by omega⟩
      | some m =>
        exact ⟨min a m, by simp [listMin] at ht ⊢; simp [ht], by omega⟩
    · obtain ⟨m, hm, hle⟩ := ih h
      exact ⟨min a m, by simp [listMin] at hm ⊢; simp [hm], by omega⟩

theorem le_listMax (l : List Nat) (d : Nat) (hd : d ∈ l) :
    ∃ m, listMax l = some m ∧ d ≤ m := by
  induction l with
  | nil => cases hd
  | cons a t ih =>
    rcases List.mem_cons.mp hd with heq | h
    · cases ht : listMax t with
      | none =>
        exact ⟨a, by simp [listMax] at ht ⊢; simp [ht], by omega⟩
      | some m =>
        exact ⟨max a m, by simp [listMax] at ht ⊢; simp [ht], by omega⟩
    · obtain ⟨m, hm, hle⟩ := ih h
      exact ⟨max a m, by simp [listMax] at hm ⊢; simp [hm], by omega⟩

theorem sum_map_filter_add {α : Type} (l : List α) (p : α → Bool)
    (f : α → ℚ) :
    ((l.filter p).map f).sum +
      ((l.filter (fun a => !(p a))).map f).sum = (l.map f).sum := by
  induction l with
  | nil => simp
  | cons a t ih =>
    cases hp : p a <;>
      simp [List.filter_cons, hp] <;> linarith [ih]

theorem sum_filter_key {α β : Type} [DecidableEq β] (K : List β)
    (l : List α) (key : α → β) (f : α → ℚ) (hK : K.Nodup)
    (hl : ∀ a ∈ l, key a ∈ K) :
    (K.map (fun b =>
      ((l.filter (fun a => decide (key a = b))).map f).sum)).sum =
      (l.map f).sum := by
  induction K generalizing l with
  | nil =>
    cases l with
    | nil => simp
    | cons a t => exact absurd (hl a (List.mem_cons_self a t)) (by simp)
  | cons b K ih =>
    have hb : b ∉ K := (List.nodup_cons.mp hK).1
    have hK2 : K.Nodup := (List.nodup_cons.mp hK).2
    have hrest : ∀ b2 ∈ K,
        l.filter (fun a => decide (key a = b2)) =
          (l.filter (fun a => !(decide (key a = b)))).filter
            (fun a => decide (key a = b2)) := by
      intro b2 hb2
      rw [List.filter_filter]
      apply List.filter_congr
      intro a _
      by_cases h : key a = b2
      · have hne : key a ≠ b := fun hc => hb (hc ▸ h ▸ hb2)
        simp [h, hne]
        exact fun hc => hb (hc ▸ hb2)
      · simp [h]
    have hmap : K.map (fun b2 =>
        ((l.filter (fun a => decide (key a = b2))).map f).sum) =
        K.map (fun b2 =>
          (((l.filter (fun a => !(decide (key a = b)))).filter
            (fun a => decide (key a = b2))).map f).sum) := by
      apply List.map_congr_left
      intro b2 hb2
      rw [hrest b2 hb2]
    have hsub : ∀ a ∈ l.filter (fun a => !(decide (key a = b))),
        key a ∈ K := by
      intro a ha
      have hmem := List.mem_of_mem_filter ha
      have hne : ¬ (key a = b) := by
        have := List.of_mem_filter ha
        simpa using this
      rcases List.mem_cons.mp (hl a hmem) with h | h
      · exact absurd h hne
      · exact h
    calc (((b :: K)).map (fun b2 =>
          ((l.filter (fun a => decide (key a = b2))).map f).sum)).sum
        = ((l.filter (fun a => decide (key a = b))).map f).sum +
            (K.map (fun b2 =>
              ((l.filter (fun a => decide (key a = b2))).map f).sum)).sum := by
          simp
      _ = ((l.filter (fun a => decide (key a = b))).map f).sum +
            ((l.filter (fun a => !(decide (key a = b)))).map f).sum := by
          rw [hmap, ih (l.filter (fun a => !(decide (key a = b)))) hK2 hsub]
      _ = (l.map f).sum := sum_map_filter_add l _ f

/-! ## Claim theorems -/

/-- C8: `Filter` is idempotent: for every Dataset `D` and
FilterCriteria `C`, `Filter(Filter(D, C), C) = Filter(D, C)`
(lines 62-66 apply a pure row predicate as a boolean mask). -/
theorem c8_filter_idempotent (ds : List Row) (c : FilterCriteria) :
    filterView c (filterView c ds) = filterView c ds := by
  simp [filterView, List.filter_filter, Bool.and_self]

/-- C9: the field coercer touches only the `Quantity`, `Price`,
`Date` and `Revenue` columns: at every position of the dataset, the
`Product` field and all extra columns beyond them are exactly as
loaded (lines 42-44 and 55 assign only those four columns). -/
theorem c9_coercion_frame (raw : List RawRow) (i : Nat) :
    ((coerce raw)[i]?).map Row.product =
      (raw[i]?).map RawRow.product ∧
    ((coerce raw)[i]?).map Row.extra = (raw[i]?).map RawRow.extra := by
  constructor <;>
    · simp only [coerce, List.getElem?_map, Option.map_map]
      cases raw[i]? <;> simp [coerceRow]

/-- C2: after coercion every row of every Dataset satisfies
`revenue = quantity * price`, also on rows whose original `Quantity`
or `Price` text was malformed; and the derived `Revenue` never reads
a source `Revenue` cell: two raw rows differing only in that cell
coerce identically (line 44 recomputes `Revenue` from the coerced
columns). -/
theorem c2_revenue_recomputed (raw : List RawRow) :
    (∀ r ∈ coerce raw, r.revenue = (r.quantity : ℚ) * r.price) ∧
    (∀ r s : RawRow, r.date = s.date → r.product = s.product →
      r.quantity = s.quantity → r.price = s.price → r.extra = s.extra →
      coerceRow r = coerceRow s) := by
  constructor
  · intro r hr
    obtain ⟨a, _, rfl⟩ := List.mem_map.mp hr
    rfl
  · intro r s h1 h2 h3 h4 h5
    simp [coerceRow, h1, h2, h3, h4, h5]

/-- Witness for C2 at the spec's example row `(2024-01-02, "B", "x",
"5")` and at a pair of rows differing only in a source `Revenue`
cell. -/
theorem c2_witness :
    (coerceRow ⟨"2024-01-02", "B", "x", "5", none, []⟩).revenue =
      ((coerceRow ⟨"2024-01-02", "B", "x", "5", none, []⟩).quantity : ℚ) *
        (coerceRow ⟨"2024-01-02", "B", "x", "5", none, []⟩).price ∧
    coerceRow ⟨"2024-01-02", "B", "x", "5", some "999", []⟩ =
      coerceRow ⟨"2024-01-02", "B", "x", "5", none, []⟩ := by
  have h := c2_revenue_recomputed [⟨"2024-01-02", "B", "x", "5", none, []⟩]
  exact ⟨h.1 _ (by simp [coerce]), h.2 _ _ rfl rfl rfl rfl rfl⟩

/-- C4: coercion is per-row and total: the coerced Dataset has the
same length, position by position the image of `coerceRow`, and an
unparseable `Quantity` becomes `0`, an unparseable `Price` becomes
`0.0`, an unparseable `Date` becomes null (lines 42-44 and 55 use
`errors="coerce"` with `fillna`). -/
theorem c4_coercion_preserves_rows (raw : List RawRow) :
    (coerce raw).length = raw.length ∧
    (∀ i : Nat, (coerce raw)[i]? = (raw[i]?).map coerceRow) ∧
    (∀ r : RawRow, parseNum r.quantity = none →
      (coerceRow r).quantity = 0) ∧
    (∀ r : RawRow, parseNum r.price = none → (coerceRow r).price = 0) ∧
    (∀ r : RawRow, parseDate r.date = none → (coerceRow r).date = none) := by
  refine ⟨by simp [coerce], fun i => by simp [coerce],
    fun r h => ?_, fun r h => ?_, fun r h => ?_⟩
  · simp [coerceRow, h]
  · simp [coerceRow, h]
  · simp [coerceRow, h]

/-- Witness for C4 at a one-row dataset whose three cells are all
malformed. -/
theorem c4_witness :
    (coerce [⟨"bad", "B", "x", "y", none, []⟩]).length = 1 ∧
    (coerceRow ⟨"bad", "B", "x", "y", none, []⟩).quantity = 0 ∧
    (coerceRow ⟨"bad", "B", "x", "y", none, []⟩).price = 0 ∧
    (coerceRow ⟨"bad", "B", "x", "y", none, []⟩).date = none := by
  have h := c4_coercion_preserves_rows [⟨"bad", "B", "x", "y", none, []⟩]
  exact ⟨h.1, h.2.2.1 _ (by decide), h.2.2.2.1 _ (by decide),
    h.2.2.2.2 _ (by decide)⟩

/-- C3: for every Dataset and criteria with product set `ps` and
inclusive interval `[lo, hi]`, `Filter` returns exactly the stable
sub-sequence described by the spec (product in the set, date within
the interval); a null date never matches; an empty product set or an
inverted interval yields an empty view (lines 62-66). -/
theorem c3_filter_semantics (ds : List Row) (ps : List String)
    (lo hi : Nat) :
    filterView ⟨ps, some lo, some hi⟩ ds = specFilterView ps lo hi ds ∧
    (∀ r ∈ filterView ⟨ps, some lo, some hi⟩ ds, r.date ≠ none) ∧
    (ps = [] → filterView ⟨ps, some lo, some hi⟩ ds = []) ∧
    (hi < lo → filterView ⟨ps, some lo, some hi⟩ ds = []) := by
  refine ⟨?_, ?_, ?_, ?_⟩
  · apply List.filter_congr
    intro r _
    cases hd : r.date <;>
      simp [rowMatches, dateGe, dateLe, hd, Bool.and_assoc]
  · intro r hr hd
    have hm := List.of_mem_filter hr
    rw [rowMatches, hd] at hm
    simp [dateGe] at hm
  · intro hps
    subst hps
    apply List.filter_eq_nil_iff.mpr
    intro r _
    simp [rowMatches]
  · intro hlt
    apply List.filter_eq_nil_iff.mpr
    intro r _
    cases hd : r.date with
    | none => simp [rowMatches, dateGe, hd]
    | some d =>
      simp [rowMatches, dateGe, dateLe, hd]
      intro _ h1
      omega

/-- Witness for C3: the empty product selection yields the empty
view on a concrete one-row dataset. -/
theorem c3_witness :
    filterView ⟨[], some 20240101, some 20240102⟩
      (coerce [⟨"2024-01-01", "A", "3", "10", none, []⟩]) = [] :=
  (c3_filter_semantics
    (coerce [⟨"2024-01-01", "A", "3", "10", none, []⟩])
    [] 20240101 20240102).2.2.1 rfl

/-- C7 fails as stated: the coercer does not clamp negative values,
so the row with `Quantity` text `"-3"` coerces to quantity `-3 < 0`
(line 42 applies `to_numeric` and `astype(int)` with no sign
check). -/
theorem c7_counterexample :
    ¬ (0 ≤ (coerceRow ⟨"2024-01-01", "A", "-3", "4", none, []⟩).quantity ∧
       0 ≤ (coerceRow ⟨"2024-01-01", "A", "-3", "4", none, []⟩).price) := by
  with_unfolding_all decide

/-- C7 amended: after coercion, quantity is an integer and price a
rational; they are non-negative whenever every parseable source
value is non-negative (malformed cells coerce to `0`/`0.0`); a
negative source value is preserved, so unconditional non-negativity
does not hold. -/
theorem c7_nonneg_when_source_nonneg (r : RawRow)
    (hq : ∀ q, parseNum r.quantity = some q → 0 ≤ q)
    (hp : ∀ p, parseNum r.price = some p → 0 ≤ p) :
    0 ≤ (coerceRow r).quantity ∧ 0 ≤ (coerceRow r).price := by
  constructor
  · show (0 : Int) ≤ ((parseNum r.quantity).map ratTrunc).getD 0
    cases h : parseNum r.quantity with
    | none => simp
    | some q =>
      simp only [Option.map_some', Option.getD_some]
      have hnum : 0 ≤ q.num := Rat.num_nonneg.mpr (hq q h)
      exact Int.tdiv_nonneg hnum (Int.ofNat_nonneg q.den)
  · show (0 : ℚ) ≤ (parseNum r.price).getD 0
    cases h : parseNum r.price with
    | none => simp
    | some p =>
      simp only [Option.getD_some]
      exact hp p h

/-- Witness for C7's amended theorem at a row with non-negative
parseable cells. -/
theorem c7_witness :
    0 ≤ (coerceRow ⟨"2024-01-01", "A", "3", "10", none, []⟩).quantity ∧
    0 ≤ (coerceRow ⟨"2024-01-01", "A", "3", "10", none, []⟩).price := by
  apply c7_nonneg_when_source_nonneg
  · intro q h
    have h3 : parseNum "3" = some 3 := by with_unfolding_all decide
    rw [h3, Option.some_inj] at h
    rw [← h]
    norm_num
  · intro p h
    have h10 : parseNum "10" = some 10 := by with_unfolding_all decide
    rw [h10, Option.some_inj] at h
    rw [← h]
    norm_num

/-- C5: the loader trims surrounding whitespace from column names and
then, when the required set `{Date, Product, Quantity, Price}` is not
a subset of the present columns, fails with a validation error from
whose expected/found payload the missing required columns are exactly
recovered, and yields no dataset for further processing; with all
required columns present it succeeds (lines 33-39). -/
theorem c5_load_validation (cols : List String) (rows : List RawRow) :
    ((¬ ∀ c ∈ requiredCols, c ∈ cols.map strTrim) →
      load cols rows =
        Except.error ⟨requiredCols, cols.map strTrim⟩ ∧
      (ValidationError.mk requiredCols (cols.map strTrim)).missing =
        requiredCols.filter (fun c => decide (c ∉ cols.map strTrim)) ∧
      (ValidationError.mk requiredCols (cols.map strTrim)).missing ≠ [] ∧
      (∀ ds, load cols rows ≠ Except.ok ds)) ∧
    ((∀ c ∈ requiredCols, c ∈ cols.map strTrim) →
      load cols rows = Except.ok rows) := by
  have hiff : (requiredCols.all
      (fun c => (cols.map strTrim).contains c) = true) ↔
      (∀ c ∈ requiredCols, c ∈ cols.map strTrim) := by
    rw [List.all_eq_true]
    constructor
    · intro h c hc
      simpa [List.contains, List.elem_iff] using h c hc
    · intro h c hc
      simpa [List.contains, List.elem_iff] using h c hc
  have hload : load cols rows =
      if requiredCols.all (fun c => (cols.map strTrim).contains c) then
        Except.ok rows
      else Except.error ⟨requiredCols, cols.map strTrim⟩ := rfl
  constructor
  · intro hmiss
    have hfalse : requiredCols.all
        (fun c => (cols.map strTrim).contains c) = false := by
      rcases Bool.eq_false_or_eq_true
        (requiredCols.all (fun c => (cols.map strTrim).contains c)) with
        h | h
      · exact absurd (hiff.mp h) hmiss
      · exact h
    have herr : load cols rows =
        Except.error ⟨requiredCols, cols.map strTrim⟩ := by
      rw [hload, hfalse]
      simp
    refine ⟨herr, ?_, ?_, ?_⟩
    · show requiredCols.filter
        (fun c => !((cols.map strTrim).contains c)) = _
      apply List.filter_congr
      intro c _
      by_cases hm : c ∈ cols.map strTrim <;>
        simp [List.contains, List.elem_iff, hm]
    · rw [Classical.not_forall] at hmiss
      obtain ⟨c, hc⟩ := hmiss
      rw [Classical.not_imp] at hc
      obtain ⟨hcr, hnc⟩ := hc
      apply List.ne_nil_of_mem (a := c)
      show c ∈ requiredCols.filter
        (fun c => !((cols.map strTrim).contains c))
      rw [List.mem_filter]
      exact ⟨hcr, by simp [List.contains, List.elem_iff, hnc]⟩
    · intro ds hds
      rw [herr] at hds
      exact Except.noConfusion hds
  · intro h
    rw [hload, hiff.mpr h]
    simp

/-- Witness for C5: a header missing `Price` (and with whitespace
around other names) fails, and the error payload pins down exactly
`Price` as missing. -/
theorem c5_witness :
    load ["Date ", " Product", "Quantity"] [] =
      Except.error ⟨requiredCols,
        ["Date ", " Product", "Quantity"].map strTrim⟩ ∧
    (ValidationError.mk requiredCols
      (["Date ", " Product", "Quantity"].map strTrim)).missing =
      ["Price"] := by
  have h := (c5_load_validation ["Date ", " Product", "Quantity"]
    ([] : List RawRow)).1 (by decide)
  refine ⟨h.1, ?_⟩
  rw [h.2.1]
  decide

/-- C6: when every date of the Dataset is null, the derived default
bounds are themselves null and the default-filtered view is empty, so
the aggregates report zero/empty results instead of failing
(lines 55-59 propagate NaT, whose comparisons are all false). -/
theorem c6_all_null_dates (ds : List Row) (h : ∀ r ∈ ds, r.date = none) :
    minDate ds = none ∧ maxDate ds = none ∧
    filterView (fullCriteria ds) ds = [] ∧
    totalRevenue (filterView (fullCriteria ds) ds) = 0 ∧
    revenueByDaySum (filterView (fullCriteria ds) ds) = 0 := by
  have hfm : ds.filterMap Row.date = [] :=
    List.filterMap_eq_nil_iff.mpr h
  have hmin : minDate ds = none := by rw [minDate, hfm]; rfl
  have hmax : maxDate ds = none := by rw [maxDate, hfm]; rfl
  have hfv : filterView (fullCriteria ds) ds = [] := by
    apply List.filter_eq_nil_iff.mpr
    intro r _
    cases hr : r.date <;>
      simp [rowMatches, fullCriteria, hmin, dateGe, hr]
  exact ⟨hmin, hmax, hfv, by rw [totalRevenue, hfv]; rfl,
    by rw [revenueByDaySum, hfv]; rfl⟩

/-- Witness for C6 at a one-row dataset whose only date is
unparseable. -/
theorem c6_witness :
    totalRevenue (filterView
      (fullCriteria (coerce [⟨"bad", "A", "2", "3", none, []⟩]))
      (coerce [⟨"bad", "A", "2", "3", none, []⟩])) = 0 :=
  (c6_all_null_dates (coerce [⟨"bad", "A", "2", "3", none, []⟩])
    (by decide)).2.2.2.1

/-- C1 fails as stated: under the full criteria (all distinct
products, interval `[min date, max date]`), a row whose date is
unparseable (null) is excluded by the date mask, so its revenue is
lost from the filtered total (lines 62-66 versus line 72). -/
theorem c1_counterexample :
    totalRevenue (filterView
      (fullCriteria (coerce [⟨"2024-01-01", "A", "1", "1", none, []⟩,
        ⟨"bad", "B", "2", "3", none, []⟩]))
      (coerce [⟨"2024-01-01", "A", "1", "1", none, []⟩,
        ⟨"bad", "B", "2", "3", none, []⟩])) ≠
    totalRevenue (coerce [⟨"2024-01-01", "A", "1", "1", none, []⟩,
      ⟨"bad", "B", "2", "3", none, []⟩]) := by
  with_unfolding_all decide

/-- C1 amended: for every Dataset all of whose rows carry a non-null
date, filtering with the full criteria (all distinct products and the
interval `[min date, max date]`) preserves the total revenue. -/
theorem c1_full_criteria_total (ds : List Row)
    (h : ∀ r ∈ ds, r.date ≠ none) :
    totalRevenue (filterView (fullCriteria ds) ds) = totalRevenue ds := by
  have hfv : filterView (fullCriteria ds) ds = ds := by
    apply List.filter_eq_self.mpr
    intro r hr
    have hprod : r.product ∈ defaultProducts ds := by
      rw [defaultProducts, mem_sortStrings, List.mem_dedup]
      exact List.mem_map_of_mem Row.product hr
    cases hd : r.date with
    | none => exact absurd hd (h r hr)
    | some d =>
      have hdm : d ∈ ds.filterMap Row.date :=
        List.mem_filterMap.mpr ⟨r, hr, hd⟩
      obtain ⟨m, hm, hmle⟩ := listMin_le _ d hdm
      obtain ⟨M, hM, hMle⟩ := le_listMax _ d hdm
      have hmin : minDate ds = some m := by rw [minDate, hm]
      have hmax : maxDate ds = some M := by rw [maxDate, hM]
      simp [rowMatches, fullCriteria, hmin, hmax, dateGe, dateLe, hd,
        hprod, hmle, hMle]
  rw [hfv]

/-- Witness for C1's amended theorem at a one-row dataset with a
parseable date. -/
theorem c1_witness :
    totalRevenue (filterView
      (fullCriteria (coerce [⟨"2024-01-01", "A", "3", "10", none, []⟩]))
      (coerce [⟨"2024-01-01", "A", "3", "10", none, []⟩])) =
    totalRevenue (coerce [⟨"2024-01-01", "A", "3", "10", none, []⟩]) :=
  c1_full_criteria_total _ (by decide)

/-- C10: every row of a filtered view has a non-null date, and hence
the summed values of the daily revenue series equal the view's total
revenue (line 88's groupby drops no revenue of the view of
lines 62-66). -/
theorem c10_view_dates_daily_total (ds : List Row) (c : FilterCriteria) :
    (∀ r ∈ filterView c ds, r.date ≠ none) ∧
    revenueByDaySum (filterView c ds) =
      totalRevenue (filterView c ds) := by
  have hall : ∀ r ∈ filterView c ds, r.date ≠ none := by
    intro r hr hd
    have hm := List.of_mem_filter hr
    rw [rowMatches, hd] at hm
    cases cs : c.startDate <;> simp [dateGe, cs] at hm
  refine ⟨hall, ?_⟩
  have hK : ((viewDays (filterView c ds)).map some).Nodup :=
    (List.nodup_dedup _).map (Option.some_injective Nat)
  have hl : ∀ r ∈ filterView c ds,
      r.date ∈ (viewDays (filterView c ds)).map some := by
    intro r hr
    cases hd : r.date with
    | none => exact absurd hd (hall r hr)
    | some d =>
      apply List.mem_map_of_mem some
      rw [viewDays, List.mem_dedup]
      exact List.mem_filterMap.mpr ⟨r, hr, hd⟩
  have hkey := sum_filter_key ((viewDays (filterView c ds)).map some)
    (filterView c ds) Row.date Row.revenue hK hl
  rw [List.map_map] at hkey
  exact hkey

/-- Witness for C10 at a concrete filtered view. -/
theorem c10_witness :
    revenueByDaySum (filterView ⟨["A"], some 20240101, some 20240101⟩
      (coerce [⟨"2024-01-01", "A", "3", "10", none, []⟩])) =
    totalRevenue (filterView ⟨["A"], some 20240101, some 20240101⟩
      (coerce [⟨"2024-01-01", "A", "3", "10", none, []⟩])) :=
  (c10_view_dates_daily_total
    (coerce [⟨"2024-01-01", "A", "3", "10", none, []⟩])
    ⟨["A"], some 20240101, some 20240101⟩).2

end SalesDashboard
